import Mathlib

set_option maxRecDepth 200000

/-!
# Verification of the paxbuild build-and-package pipeline

Shallow embedding of the core pipeline of the `paxbuild` package builder:

* `src/recipe.rs` — recipe validation, package-identifier derivation, and the
  `name-version-arch.pax` filename construction/parsing pair;
* `src/source.rs` — source acquisition: SHA-256 checksum verification and the
  download → verify → extract ordering;
* `src/builder.rs` — the per-architecture build loop, build-script execution,
  package assembly and metadata synthesis.

Strings from the Rust side are modelled by Lean `String` at the interfaces and
by `List Char` in the parsing kernel; bytes are `Nat` values below 256;
fallible Rust functions returning `anyhow::Result` are modelled with `Except`.
Filesystem and process effects are modelled by explicit state passing plus an
event trace (see `BuildEvent`), mirroring the source's control flow.
-/

namespace Paxbuild

/-! ## Character classification

`recipe.rs` classifies characters with Rust's `char::is_alphanumeric` and
`char::is_numeric`, which follow the Unicode character database
(`Alphabetic` property, and the `Nd`/`Nl`/`No` general categories).
The embedding spells these predicates out exactly over the Basic Latin and
Latin-1 Supplement blocks plus the Arabic-Indic digits, which cover every
character appearing in this development; code points outside these blocks are
outside the model and mapped to `false`. -/

/-- Embeds Rust `char::is_alphabetic` (the Unicode `Alphabetic` property) on
the modelled blocks: ASCII letters, and the Latin-1 Supplement letters
`U+00AA`, `U+00B5`, `U+00BA`, `U+00C0–U+00D6`, `U+00D8–U+00F6`,
`U+00F8–U+00FF`. -/
def rustIsAlphabetic (c : Char) : Bool :=
  let n := c.toNat
  (65 ≤ n && n ≤ 90) || (97 ≤ n && n ≤ 122) ||
  n == 0xAA || n == 0xB5 || n == 0xBA ||
  (0xC0 ≤ n && n ≤ 0xD6) || (0xD8 ≤ n && n ≤ 0xF6) || (0xF8 ≤ n && n ≤ 0xFF)

/-- Embeds Rust `char::is_numeric` (Unicode general categories `Nd`, `Nl`,
`No`) on the modelled blocks: ASCII digits, the Latin-1 Supplement numeric
characters `U+00B2`, `U+00B3`, `U+00B9`, `U+00BC–U+00BE`, and the
Arabic-Indic digits `U+0660–U+0669`. -/
def rustIsNumeric (c : Char) : Bool :=
  let n := c.toNat
  (48 ≤ n && n ≤ 57) ||
  n == 0xB2 || n == 0xB3 || n == 0xB9 ||
  (0xBC ≤ n && n ≤ 0xBE) ||
  (0x660 ≤ n && n ≤ 0x669)

/-- Embeds Rust `char::is_alphanumeric`, defined in the standard library as
`is_alphabetic || is_numeric`. -/
def rustIsAlphanumeric (c : Char) : Bool :=
  rustIsAlphabetic c || rustIsNumeric c

/-! ## Splitting and joining on `-`

`parse_package_filename` uses `str::split('-')` and `[&str]::join("-")`.
Both are embedded on `List Char`.  Rust's `split` on an empty string yields
one empty segment, and adjacent separators yield empty segments, which the
recursion below reproduces. -/

/-- Embeds Rust `str::split('-')` (collected to a `Vec`). -/
def splitOnDash : List Char → List (List Char)
  | [] => [[]]
  | c :: rest =>
    match splitOnDash rest with
    | [] => [[]]
    | p :: ps => if c = '-' then [] :: p :: ps else (c :: p) :: ps

/-- Embeds Rust `[&str]::join("-")`. -/
def joinDash : List (List Char) → List Char
  | [] => []
  | [p] => p
  | p :: ps => p ++ '-' :: joinDash ps

/-! ## The `.pax` extension

`parse_package_filename` first checks `filename.ends_with(".pax")` and then
strips the extension with `filename.trim_end_matches(".pax")`, which removes
*every* trailing occurrence of `".pax"`, repeatedly.  Both are embedded via
the reversed character list. -/

/-- Whether a reversed character list begins with the reversal of
`".pax"`, i.e. the original list ends with `".pax"`. -/
def paxHeadMatch : List Char → Bool
  | c1 :: c2 :: c3 :: c4 :: _ =>
    c1 == 'x' && c2 == 'a' && c3 == 'p' && c4 == '.'
  | _ => false

/-- Embeds Rust `str::ends_with(".pax")`. -/
def endsWithPax (s : List Char) : Bool :=
  paxHeadMatch s.reverse

/-- Worker for `trimEndMatchesPax`, operating on the reversed list: removes
every leading occurrence of the reversal of `".pax"`. -/
def trimPaxRev : List Char → List Char
  | c1 :: c2 :: c3 :: c4 :: rest =>
    if c1 == 'x' && c2 == 'a' && c3 == 'p' && c4 == '.' then trimPaxRev rest
    else c1 :: c2 :: c3 :: c4 :: rest
  | s => s

/-- Embeds Rust `str::trim_end_matches(".pax")`: repeatedly removes a
trailing `".pax"` suffix. -/
def trimEndMatchesPax (s : List Char) : List Char :=
  (trimPaxRev s.reverse).reverse

/-! ## Architecture whitelist (`recipe.rs`) -/

/-- The `valid_archs` array appearing in both `validate_architectures` and
`is_architecture_supported`. -/
def validArchs : List String :=
  ["x86_64", "aarch64", "armv7", "i686", "riscv64"]

/-- Embeds `BuildRecipe::is_architecture_supported`. -/
def is_architecture_supported (arch : String) : Bool :=
  validArchs.contains arch

/-! ## `parse_package_filename` (`recipe.rs` lines 145–198) -/

/-- One dash-separated segment is an architecture candidate: the source's
shape check (alphanumeric/underscore only, no embedded `.`, length ≤ 20)
conjoined with the whitelist membership check that actually stops the scan. -/
def archCandidate (part : List Char) : Bool :=
  part.all (fun c => rustIsAlphanumeric c || c = '_') &&
  !part.contains '.' && part.length ≤ 20 &&
  is_architecture_supported (String.mk part)

/-- A segment at which the version can begin: contains a `.` or is purely
numeric (the source's `part.contains('.') || part.chars().all(is_numeric)`).
Note that an empty segment is purely numeric vacuously, exactly as in Rust. -/
def versionishPart (part : List Char) : Bool :=
  part.contains '.' || part.all rustIsNumeric

/-- The greatest index of a list element satisfying `p`, or `none`.  This is
what a `for … in xs.iter().enumerate().rev()` loop that breaks on the first
match computes. -/
def lastIdxWhere (p : α → Bool) : List α → Option Nat
  | [] => none
  | a :: rest =>
    match lastIdxWhere p rest with
    | some i => some (i + 1)
    | none => if p a then some 0 else none

/-- Kernel of `BuildRecipe::parse_package_filename` on character lists.

The source's two reverse scans are rendered with `lastIdxWhere`: the
architecture scan runs over all segments, the version scan over all but the
last (`.rev().skip(1)`), defaulting to the architecture index.

The Rust slice `&parts[version_start..arch_index]` panics when
`version_start > arch_index`; that path is modelled totally (the slice comes
out empty and the digit check then rejects) and is not exercised by any
theorem below. -/
def parsePackageFilenameCore (filename : List Char) :
    Option (List Char × List Char × List Char) :=
  if endsWithPax filename then
    let nameWithoutExt := trimEndMatchesPax filename
    let parts := splitOnDash nameWithoutExt
    if parts.length < 3 then none
    else
      match lastIdxWhere archCandidate parts with
      | none => none
      | some archIndex =>
        if archIndex = 0 then none
        else
          let versionStart :=
            (lastIdxWhere versionishPart parts.dropLast).getD archIndex
          let name := joinDash (parts.take versionStart)
          let version :=
            joinDash ((parts.drop versionStart).take (archIndex - versionStart))
          let arch := parts.getD archIndex []
          if version.any rustIsNumeric then some (name, version, arch)
          else none
  else none

/-- Embeds `BuildRecipe::parse_package_filename`. -/
def parse_package_filename (filename : String) :
    Option (String × String × String) :=
  (parsePackageFilenameCore filename.data).map
    fun t => (String.mk t.1, String.mk t.2.1, String.mk t.2.2)

/-! ## The recipe record and its derived names (`recipe.rs`) -/

/-- Embeds the `BuildRecipe` struct.  `serde` parsing is outside the model;
a value of this type stands for an already-deserialized recipe. -/
structure BuildRecipe where
  name : String
  version : String
  description : String
  source : String
  hash : Option String
  arch : List String
  dependencies : List String
  runtime_dependencies : List String
  provides : List String
  conflicts : List String
  build : Option String
  install : Option String
  uninstall : Option String
deriving DecidableEq, Repr

/-- Embeds `default_arch`. -/
def default_arch : List String := ["x86_64", "aarch64"]

/-- Embeds `BuildRecipe::package_id`: `format!("{}-{}", name, version)`. -/
def package_id (r : BuildRecipe) : String :=
  r.name ++ "-" ++ r.version

/-- Embeds `BuildRecipe::package_filename`. -/
def package_filename (r : BuildRecipe) : String :=
  package_id r ++ ".pax"

/-- Embeds `BuildRecipe::package_filename_for_arch`:
`format!("{}-{}.pax", package_id, arch)`. -/
def package_filename_for_arch (r : BuildRecipe) (arch : String) : String :=
  package_id r ++ "-" ++ arch ++ ".pax"

/-- The error taxonomy of the pipeline, one constructor per `anyhow::bail!`
site reached by the modelled code paths. -/
inductive BuildError
  | nameEmpty
  | versionEmpty
  | descriptionEmpty
  | sourceEmpty
  | nameInvalidChars
  | versionNoNumber
  | invalidArchitecture (arch : String)
  | noArchitecturesSpecified
  | checksumMismatch (expected calculated : String)
  | buildScriptFailed (arch : String)
deriving DecidableEq, Repr

/-- Embeds `BuildRecipe::validate_architectures`: the loop bails on the first
architecture missing from `valid_archs`. -/
def validate_architectures : List String → Except BuildError Unit
  | [] => .ok ()
  | a :: rest =>
    if validArchs.contains a then validate_architectures rest
    else .error (.invalidArchitecture a)

/-- Embeds `BuildRecipe::validate` (`recipe.rs` lines 99–127), check for
check in source order. -/
def validate (r : BuildRecipe) : Except BuildError Unit :=
  if r.name.isEmpty then .error .nameEmpty
  else if r.version.isEmpty then .error .versionEmpty
  else if r.description.isEmpty then .error .descriptionEmpty
  else if r.source.isEmpty then .error .sourceEmpty
  else if !(r.name.data.all fun c => rustIsAlphanumeric c || c = '-' || c = '_') then
    .error .nameInvalidChars
  else if !(r.version.data.any rustIsNumeric) then .error .versionNoNumber
  else validate_architectures r.arch

/-! ## SHA-256 (`source.rs` uses the `sha2` crate)

`SourceManager::verify_hash` hashes the downloaded bytes with SHA-256 and
hex-encodes the digest in lowercase.  The `sha2` crate implements FIPS 180-4,
reproduced here executably over byte lists (`Nat` values below 256), with
32-bit words as `Nat` reduced modulo `2^32`. -/

/-- Addition of 32-bit words. -/
def add32 (a b : Nat) : Nat := (a + b) % 4294967296

/-- Right rotation of a 32-bit word by `n` places. -/
def rotr32 (x n : Nat) : Nat :=
  ((x >>> n) ||| (x <<< (32 - n))) % 4294967296

/-- Bitwise complement of a 32-bit word. -/
def not32 (x : Nat) : Nat := Nat.xor x 4294967295

/-- The SHA-256 choice function `Ch(e,f,g)`. -/
def sha256Ch (e f g : Nat) : Nat :=
  Nat.xor (Nat.land e f) (Nat.land (not32 e) g)

/-- The SHA-256 majority function `Maj(a,b,c)`. -/
def sha256Maj (a b c : Nat) : Nat :=
  Nat.xor (Nat.xor (Nat.land a b) (Nat.land a c)) (Nat.land b c)

/-- The function Σ₀ of FIPS 180-4. -/
def bigSigma0 (x : Nat) : Nat :=
  Nat.xor (Nat.xor (rotr32 x 2) (rotr32 x 13)) (rotr32 x 22)

/-- The function Σ₁ of FIPS 180-4. -/
def bigSigma1 (x : Nat) : Nat :=
  Nat.xor (Nat.xor (rotr32 x 6) (rotr32 x 11)) (rotr32 x 25)

/-- The function σ₀ of FIPS 180-4. -/
def smallSigma0 (x : Nat) : Nat :=
  Nat.xor (Nat.xor (rotr32 x 7) (rotr32 x 18)) (x >>> 3)

/-- The function σ₁ of FIPS 180-4. -/
def smallSigma1 (x : Nat) : Nat :=
  Nat.xor (Nat.xor (rotr32 x 17) (rotr32 x 19)) (x >>> 10)

/-- The 64 SHA-256 round constants. -/
def sha256K : List Nat :=
  [1116352408, 1899447441, 3049323471, 3921009573,
   961987163, 1508970993, 2453635748, 2870763221,
   3624381080, 310598401, 607225278, 1426881987,
   1925078388, 2162078206, 2614888103, 3248222580,
   3835390401, 4022224774, 264347078, 604807628,
   770255983, 1249150122, 1555081692, 1996064986,
   2554220882, 2821834349, 2952996808, 3210313671,
   3336571891, 3584528711, 113926993, 338241895,
   666307205, 773529912, 1294757372, 1396182291,
   1695183700, 1986661051, 2177026350, 2456956037,
   2730485921, 2820302411, 3259730800, 3345764771,
   3516065817, 3600352804, 4094571909, 275423344,
   430227734, 506948616, 659060556, 883997877,
   958139571, 1322822218, 1537002063, 1747873779,
   1955562222, 2024104815, 2227730452, 2361852424,
   2428436474, 2756734187, 3204031479, 3329325298]

/-- The eight working variables of the compression function. -/
structure Sha256State where
  a : Nat
  b : Nat
  c : Nat
  d : Nat
  e : Nat
  f : Nat
  g : Nat
  h : Nat
deriving DecidableEq, Repr

/-- The SHA-256 initial hash value. -/
def sha256Init : Sha256State :=
  ⟨1779033703, 3144134277, 1013904242, 2773480762,
   1359893119, 2600822924, 528734635, 1541459225⟩

/-- One round of the compression function, consuming a pair of a round
constant and a schedule word. -/
def sha256Round (st : Sha256State) (kw : Nat × Nat) : Sha256State :=
  let t1 := add32 (add32 (add32 (add32 st.h (bigSigma1 st.e))
    (sha256Ch st.e st.f st.g)) kw.1) kw.2
  let t2 := add32 (bigSigma0 st.a) (sha256Maj st.a st.b st.c)
  ⟨add32 t1 t2, st.a, st.b, st.c, add32 st.d t1, st.e, st.f, st.g⟩

/-- Groups a byte list into big-endian 32-bit words. -/
def bytesToWords : List Nat → List Nat
  | b0 :: b1 :: b2 :: b3 :: rest =>
    (((b0 * 256 + b1) * 256 + b2) * 256 + b3) :: bytesToWords rest
  | _ => []

/-- Splits a 32-bit word into big-endian bytes. -/
def wordsToBytes : List Nat → List Nat
  | [] => []
  | w :: rest =>
    (w / 16777216 % 256) :: (w / 65536 % 256) :: (w / 256 % 256) ::
      (w % 256) :: wordsToBytes rest

/-- Extends the 16-word message schedule by `k` further words. -/
def extendW (w : List Nat) : Nat → List Nat
  | 0 => w
  | k + 1 =>
    let n := w.length
    let wi := add32
      (add32 (smallSigma1 (w.getD (n - 2) 0)) (w.getD (n - 7) 0))
      (add32 (smallSigma0 (w.getD (n - 15) 0)) (w.getD (n - 16) 0))
    extendW (w ++ [wi]) k

/-- Processes one 64-byte block. -/
def sha256Compress (st : Sha256State) (block : List Nat) : Sha256State :=
  let w := extendW (bytesToWords block) 48
  let r := (sha256K.zip w).foldl sha256Round st
  ⟨add32 st.a r.a, add32 st.b r.b, add32 st.c r.c, add32 st.d r.d,
   add32 st.e r.e, add32 st.f r.f, add32 st.g r.g, add32 st.h r.h⟩

/-- The 8-byte big-endian encoding of a number (the message bit length). -/
def be64 (n : Nat) : List Nat :=
  [n / 72057594037927936 % 256, n / 281474976710656 % 256,
   n / 1099511627776 % 256, n / 4294967296 % 256,
   n / 16777216 % 256, n / 65536 % 256, n / 256 % 256, n % 256]

/-- FIPS 180-4 padding: a `0x80` byte, zeros to 56 mod 64, then the bit
length in 8 big-endian bytes. -/
def sha256Pad (msg : List Nat) : List Nat :=
  let zeros := (119 - msg.length % 64) % 64
  msg ++ 0x80 :: List.replicate zeros 0 ++ be64 (msg.length * 8)

/-- Worker for `chunks64`; the fuel argument makes the recursion structural
so that the kernel can evaluate it.  Each step consumes at least one element,
so fuel equal to the list length is always sufficient. -/
def chunks64Aux : Nat → List Nat → List (List Nat)
  | 0, _ => []
  | _ + 1, [] => []
  | fuel + 1, c :: cs =>
    (c :: cs).take 64 :: chunks64Aux fuel ((c :: cs).drop 64)

/-- Splits a list into successive 64-element blocks. -/
def chunks64 (l : List Nat) : List (List Nat) :=
  chunks64Aux l.length l

/-- SHA-256 of a byte list, as 32 digest bytes. -/
def sha256 (msg : List Nat) : List Nat :=
  let final := (chunks64 (sha256Pad msg)).foldl sha256Compress sha256Init
  wordsToBytes [final.a, final.b, final.c, final.d,
                final.e, final.f, final.g, final.h]

/-- A lowercase hexadecimal digit. -/
def hexDigitChar (n : Nat) : Char :=
  if n < 10 then Char.ofNat (48 + n) else Char.ofNat (87 + n)

/-- Lowercase hex encoding of a byte list (Rust's `hex::encode`). -/
def hexEncodeBytes : List Nat → List Char
  | [] => []
  | b :: rest => hexDigitChar (b / 16) :: hexDigitChar (b % 16) :: hexEncodeBytes rest

/-- Embeds `hex::encode` applied to a digest. -/
def hexEncode (bytes : List Nat) : String :=
  String.mk (hexEncodeBytes bytes)

/-! ## Checksum verification (`source.rs` lines 181–204) -/

/-- The characters of the string `"sha256:"`. -/
def sha256MarkChars : List Char := ['s', 'h', 'a', '2', '5', '6', ':']

/-- Worker for `removeSha256Marks`; the fuel argument makes the recursion
structural so that the kernel can evaluate it.  Each step consumes at least
one character, so fuel equal to the list length is always sufficient. -/
def removeSha256MarksAux : Nat → List Char → List Char
  | 0, s => s
  | _ + 1, [] => []
  | fuel + 1, c :: rest =>
    if sha256MarkChars.isPrefixOf (c :: rest) then
      removeSha256MarksAux fuel (rest.drop 6)
    else c :: removeSha256MarksAux fuel rest

/-- Embeds Rust `str::replace("sha256:", "")`: removes every non-overlapping
occurrence of `"sha256:"`, scanning left to right — not merely a leading
algorithm prefix. -/
def removeSha256Marks (s : List Char) : List Char :=
  removeSha256MarksAux s.length s

/-- Embeds `SourceManager::verify_hash`, abstracting the already-downloaded
file contents as the byte list `bytes`: the calculated digest is the
lowercase hex SHA-256 of the bytes, the expected string has every
`"sha256:"` occurrence removed, and the two are compared as exact strings. -/
def verify_hash (bytes : List Nat) (expected_hash : String) :
    Except BuildError Unit :=
  let calculated_hash := hexEncode (sha256 bytes)
  let expected_clean := String.mk (removeSha256Marks expected_hash.data)
  if calculated_hash ≠ expected_clean then
    .error (.checksumMismatch expected_clean calculated_hash)
  else .ok ()

/-! ## The build pipeline (`builder.rs`, `source.rs`)

The pipeline performs filesystem and process effects.  They are modelled by
explicit state passing plus an event trace: `BuilderState` records the
contents of the shared `temp/install` and `temp/package` directories (as the
list of relative file names present; copying appends, and the overwriting of
an already-present name is invisible at the membership level at which the
theorems below reason), and `BuildEvent` records the externally observable
steps in order.  The outside world — the bytes the download yields and what
the recipe's build script does when run for a given architecture — is a
parameter `BuildWorld`.  Network failures, archive-format dispatch and
process-spawn failures are outside the modelled paths. -/

/-- What one invocation of the build script does for one architecture:
its exit status, its captured output streams, and the files it installs
into the directory passed as `$PAX_BUILD_ROOT`. -/
structure ScriptResult where
  exitSuccess : Bool
  stdout : String
  stderr : String
  producedFiles : List String
deriving DecidableEq, Repr

/-- The external world of one pipeline invocation. -/
structure BuildWorld where
  sourceBytes : List Nat
  script : String → ScriptResult

/-- Observable steps of the pipeline, in execution order. -/
inductive BuildEvent
  | downloaded
  | hashVerified
  | extracted
  | ranBuildScript (arch : String)
  | surfacedOutput (arch : String) (stdout stderr : String)
  | packagedArchive (arch : String) (files : List String)
deriving DecidableEq, Repr

/-- The build directory path used by `run_build_script_for_arch`:
`self.temp_dir.path().join("build")` — note that the architecture does not
occur in the path expression. -/
def buildDirFor (arch : String) : String := "build"

/-- The install directory path used by `run_build_script_for_arch` and
`create_package_for_arch`: `self.temp_dir.path().join("install")` — again
independent of the architecture. -/
def installDirFor (arch : String) : String := "install"

/-- Mutable state of the shared temporary workspace during one invocation. -/
structure BuilderState where
  installFiles : List String
  packageFiles : List String
  events : List BuildEvent
deriving Repr

/-- The initial workspace: a fresh temporary directory. -/
def initialState : BuilderState := ⟨[], [], []⟩

/-- Embeds `SourceManager::download_and_extract` (`source.rs` lines 23–38):
download, then verify the hash only if an expected hash was supplied, then
extract.  The extraction step is reached only after a successful
verification. -/
def download_and_extract (w : BuildWorld) (expected_hash : Option String)
    (st : BuilderState) : BuilderState × Except BuildError Unit :=
  let st₁ := { st with events := st.events ++ [BuildEvent.downloaded] }
  match expected_hash with
  | none =>
    ({ st₁ with events := st₁.events ++ [BuildEvent.extracted] }, .ok ())
  | some expected =>
    match verify_hash w.sourceBytes expected with
    | .ok () =>
      ({ st₁ with events :=
          st₁.events ++ [BuildEvent.hashVerified, BuildEvent.extracted] },
       .ok ())
    | .error e => (st₁, .error e)

/-- Embeds `PackageBuilder::run_build_script_for_arch` (`builder.rs` lines
74–113): `create_dir_all` on the shared build and install directories (a
no-op when they already exist — nothing is cleared), then `bash -c` on the
build script.  On a non-zero exit status both captured streams are surfaced
and the architecture-tagged error is returned; on success the files the
script installed join the shared install directory. -/
def run_build_script_for_arch (w : BuildWorld) (arch : String)
    (st : BuilderState) : BuilderState × Except BuildError Unit :=
  let res := w.script arch
  if res.exitSuccess then
    ({ st with
        installFiles := st.installFiles ++ res.producedFiles,
        events := st.events ++ [BuildEvent.ranBuildScript arch] },
     .ok ())
  else
    ({ st with events := st.events ++
        [BuildEvent.ranBuildScript arch,
         BuildEvent.surfacedOutput arch res.stdout res.stderr] },
     .error (.buildScriptFailed arch))

/-- The synthesized package metadata document (the anonymous
`PackageMetadata` struct inside `create_package_metadata_for_arch`). -/
structure PackageMetadata where
  name : String
  version : String
  description : String
  arch : List String
  dependencies : List String
  runtime_dependencies : List String
  provides : List String
  conflicts : List String
  install_script : Option String
  uninstall_script : Option String
  files : List String
deriving DecidableEq, Repr

/-- Embeds `PackageBuilder::list_files_recursive` (`builder.rs` lines
193–213): a missing directory yields the empty list, not an error; otherwise
the walk yields the relative paths of the regular files present, which the
model receives as `entries`. -/
def list_files_recursive (dirExists : Bool) (entries : List String) :
    Except BuildError (List String) :=
  if !dirExists then .ok []
  else .ok entries

/-- Embeds `PackageBuilder::create_package_metadata_for_arch` (`builder.rs`
lines 144–190).  `installDirExists` is whether `temp/install` exists at
assembly time and `installEntries` the file walk of it; serialization to
YAML is outside the model, so the document itself is returned. -/
def create_package_metadata_for_arch (r : BuildRecipe) (arch : String)
    (installDirExists : Bool) (installEntries : List String) :
    Except BuildError PackageMetadata :=
  match (if installDirExists
         then list_files_recursive installDirExists installEntries
         else .ok []) with
  | .error e => .error e
  | .ok files =>
    .ok { name := r.name
          version := r.version
          description := r.description
          arch := [arch]
          dependencies := r.dependencies
          runtime_dependencies := r.runtime_dependencies
          provides := if r.provides.isEmpty then [r.name] else r.provides
          conflicts := r.conflicts
          install_script := r.install
          uninstall_script := r.uninstall
          files := files }

/-- Embeds `PackageBuilder::create_package_for_arch` (`builder.rs` lines
116–141): `create_dir_all` on the shared `temp/package` directory (not
cleared), copy of the shared install directory into it, the metadata file
written as `metadata.yaml`, and the tarball of the package directory written
under the per-architecture filename.  The archive's file set is recorded in
the trace. -/
def create_package_for_arch (r : BuildRecipe) (arch : String)
    (st : BuilderState) : BuilderState × String :=
  let pkgFiles := st.packageFiles ++ st.installFiles
  let archiveFiles := pkgFiles ++ ["metadata.yaml"]
  ({ st with
      packageFiles := pkgFiles,
      events := st.events ++ [BuildEvent.packagedArchive arch archiveFiles] },
   package_filename_for_arch r arch)

/-- The `for target_arch in architectures` loop body of
`build_for_architectures` (`builder.rs` lines 56–67), with the `?` early
returns rendered as explicit matches. -/
def buildLoop (w : BuildWorld) (r : BuildRecipe) :
    List String → BuilderState → BuilderState × Except BuildError (List String)
  | [], st => (st, .ok [])
  | arch :: rest, st =>
    match run_build_script_for_arch w arch st with
    | (st₁, .error e) => (st₁, .error e)
    | (st₁, .ok ()) =>
      let (st₂, path) := create_package_for_arch r arch st₁
      match buildLoop w r rest st₂ with
      | (st₃, .ok paths) => (st₃, .ok (path :: paths))
      | (st₃, .error e) => (st₃, .error e)

/-- Embeds `PackageBuilder::build_for_architectures` (`builder.rs` lines
38–71): validate, reject an empty architecture list, download and extract
the source once, then build and package architecture by architecture. -/
def build_for_architectures (w : BuildWorld) (r : BuildRecipe)
    (architectures : List String) :
    BuilderState × Except BuildError (List String) :=
  match validate r with
  | .error e => (initialState, .error e)
  | .ok () =>
    if architectures.isEmpty then
      (initialState, .error .noArchitecturesSpecified)
    else
      match download_and_extract w r.hash initialState with
      | (st, .error e) => (st, .error e)
      | (st, .ok ()) => buildLoop w r architectures st

/-! ## Lemmas about splitting, joining and scanning -/

theorem splitOnDash_ne_nil (s : List Char) : splitOnDash s ≠ [] := by
  cases s with
  | nil => simp [splitOnDash]
  | cons c rest =>
    simp only [splitOnDash]
    split
    · simp
    · split <;> simp

theorem exists_splitOnDash_cons (s : List Char) :
    ∃ p ps, splitOnDash s = p :: ps :=
  List.exists_cons_of_ne_nil (splitOnDash_ne_nil s)

theorem splitOnDash_cons_dash (b : List Char) :
    splitOnDash ('-' :: b) = [] :: splitOnDash b := by
  obtain ⟨p, ps, h⟩ := exists_splitOnDash_cons b
  simp only [splitOnDash]
  rw [h]
  simp

theorem splitOnDash_cons_of_ne (c : Char) (b : List Char) (hc : c ≠ '-')
    (p : List Char) (ps : List (List Char)) (h : splitOnDash b = p :: ps) :
    splitOnDash (c :: b) = (c :: p) :: ps := by
  simp [splitOnDash, h, hc]

theorem splitOnDash_append_dash (a b : List Char) :
    splitOnDash (a ++ '-' :: b) = splitOnDash a ++ splitOnDash b := by
  induction a with
  | nil => rw [List.nil_append, splitOnDash_cons_dash]; rfl
  | cons c a' ih =>
    by_cases hc : c = '-'
    · subst hc
      rw [List.cons_append, splitOnDash_cons_dash, splitOnDash_cons_dash, ih,
        List.cons_append]
    · obtain ⟨p, ps, h⟩ := exists_splitOnDash_cons a'
      obtain ⟨q, qs, h2⟩ := exists_splitOnDash_cons (a' ++ '-' :: b)
      rw [List.cons_append, splitOnDash_cons_of_ne c _ hc q qs h2,
        splitOnDash_cons_of_ne c _ hc p ps h]
      rw [h, h2] at ih
      injection ih with ih1 ih2
      subst ih1
      subst ih2
      rfl

theorem splitOnDash_eq_single (s : List Char) (h : ¬ '-' ∈ s) :
    splitOnDash s = [s] := by
  induction s with
  | nil => rfl
  | cons c rest ih =>
    simp only [List.mem_cons, not_or] at h
    have hc : c ≠ '-' := fun e => h.1 e.symm
    exact splitOnDash_cons_of_ne c rest hc rest [] (ih h.2)

theorem joinDash_splitOnDash (s : List Char) : joinDash (splitOnDash s) = s := by
  induction s with
  | nil => rfl
  | cons c rest ih =>
    obtain ⟨p, ps, h⟩ := exists_splitOnDash_cons rest
    rw [h] at ih
    by_cases hc : c = '-'
    · subst hc
      rw [splitOnDash_cons_dash, h]
      simpa [joinDash] using ih
    · rw [splitOnDash_cons_of_ne c rest hc p ps h]
      cases ps with
      | nil => simp only [joinDash] at ih ⊢; rw [ih]
      | cons q qs =>
        simp only [joinDash] at ih ⊢
        rw [List.cons_append, ih]

theorem lastIdxWhere_eq_none {α : Type} {p : α → Bool} {l : List α}
    (h : ∀ x ∈ l, p x = false) : lastIdxWhere p l = none := by
  induction l with
  | nil => rfl
  | cons a rest ih =>
    simp only [lastIdxWhere]
    rw [ih fun x hx => h x (List.mem_cons_of_mem a hx)]
    simp [h a (List.mem_cons_self a rest)]

theorem lastIdxWhere_concat {α : Type} {p : α → Bool} (l : List α) (a : α)
    (h : p a = true) : lastIdxWhere p (l ++ [a]) = some l.length := by
  induction l with
  | nil => simp [lastIdxWhere, h]
  | cons x rest ih =>
    simp only [List.cons_append, lastIdxWhere, List.append_eq, ih,
      List.length_cons]

theorem lastIdxWhere_append_cons {α : Type} {p : α → Bool} (l₁ : List α)
    (a : α) (l₂ : List α) (ha : p a = true)
    (h₂ : ∀ x ∈ l₂, p x = false) :
    lastIdxWhere p (l₁ ++ a :: l₂) = some l₁.length := by
  induction l₁ with
  | nil =>
    simp only [List.nil_append, lastIdxWhere, lastIdxWhere_eq_none h₂, ha]
    rfl
  | cons x rest ih =>
    simp only [List.cons_append, lastIdxWhere, List.append_eq, ih,
      List.length_cons]

theorem getD_append_cons_length {α : Type} (l : List α) (a : α) (l₂ : List α)
    (d : α) : (l ++ a :: l₂).getD l.length d = a := by
  induction l with
  | nil => rfl
  | cons x rest ih => simpa using ih

theorem trimPaxRev_of_not_match (l : List Char) (h : paxHeadMatch l = false) :
    trimPaxRev l = l := by
  match l with
  | [] => rfl
  | [c1] => rfl
  | [c1, c2] => rfl
  | [c1, c2, c3] => rfl
  | c1 :: c2 :: c3 :: c4 :: rest =>
    simp only [paxHeadMatch] at h
    simp [trimPaxRev, h]

theorem paxHeadMatch_append (l r : List Char) (h : 4 ≤ l.length) :
    paxHeadMatch (l ++ r) = paxHeadMatch l := by
  match l with
  | [] => simp at h
  | [c1] => simp at h
  | [c1, c2] => simp at h
  | [c1, c2, c3] => simp at h
  | c1 :: c2 :: c3 :: c4 :: rest => simp [paxHeadMatch]

theorem endsWithPax_append_ext (s : List Char) :
    endsWithPax (s ++ ['.', 'p', 'a', 'x']) = true := by
  simp [endsWithPax, List.reverse_append, paxHeadMatch]

theorem trimEndMatchesPax_append_ext (core : List Char)
    (h : endsWithPax core = false) :
    trimEndMatchesPax (core ++ ['.', 'p', 'a', 'x']) = core := by
  have h' : paxHeadMatch core.reverse = false := h
  have hrev : (core ++ ['.', 'p', 'a', 'x']).reverse =
      'x' :: 'a' :: 'p' :: '.' :: core.reverse := by simp
  unfold trimEndMatchesPax
  rw [hrev]
  simp only [trimPaxRev]
  rw [if_pos (by rfl), trimPaxRev_of_not_match core.reverse h',
    List.reverse_reverse]

/-- The roundtrip on character lists: parsing the canonical
`name-version-arch.pax` shape recovers the three components, provided the
architecture segment is a whitelisted candidate and the version looks like a
version to the parser (its first dash-segment contains a `.` or is purely
numeric, no later dash-segment does, and it contains a digit). -/
theorem parseCore_roundtrip (name version archC : List Char)
    (harch : archCandidate archC = true)
    (hnodash : ¬ '-' ∈ archC)
    (hlen : 4 ≤ archC.length)
    (hnotpax : paxHeadMatch archC.reverse = false)
    (hdigit : version.any rustIsNumeric = true)
    (hv0 : versionishPart ((splitOnDash version).headD []) = true)
    (hvtail : ∀ p ∈ (splitOnDash version).tail, versionishPart p = false) :
    parsePackageFilenameCore
        ((name ++ '-' :: version ++ '-' :: archC) ++ ['.', 'p', 'a', 'x']) =
      some (name, version, archC) := by
  obtain ⟨v0, vs, hv⟩ := exists_splitOnDash_cons version
  have hv0' : versionishPart v0 = true := by rw [hv] at hv0; exact hv0
  have hvtail' : ∀ p ∈ vs, versionishPart p = false := by
    rw [hv] at hvtail; simpa using hvtail
  have hEnds : endsWithPax
      ((name ++ '-' :: version ++ '-' :: archC) ++ ['.', 'p', 'a', 'x']) = true :=
    endsWithPax_append_ext _
  have hCoreSplit : name ++ '-' :: version ++ '-' :: archC
      = (name ++ '-' :: version ++ ['-']) ++ archC := by
    simp
  have hFalse : endsWithPax (name ++ '-' :: version ++ '-' :: archC) = false := by
    rw [hCoreSplit]
    unfold endsWithPax
    rw [List.reverse_append, paxHeadMatch_append _ _ (by simpa using hlen),
      hnotpax]
  have hTrim : trimEndMatchesPax
      ((name ++ '-' :: version ++ '-' :: archC) ++ ['.', 'p', 'a', 'x'])
      = name ++ '-' :: version ++ '-' :: archC :=
    trimEndMatchesPax_append_ext _ hFalse
  have hParts : splitOnDash (name ++ '-' :: version ++ '-' :: archC)
      = (splitOnDash name ++ v0 :: vs) ++ [archC] := by
    have e1 : name ++ '-' :: version ++ '-' :: archC
        = name ++ '-' :: (version ++ '-' :: archC) := by simp
    rw [e1, splitOnDash_append_dash name (version ++ '-' :: archC),
      splitOnDash_append_dash version archC,
      splitOnDash_eq_single archC hnodash, hv]
    simp
  have hnp : 0 < (splitOnDash name).length :=
    List.length_pos.mpr (splitOnDash_ne_nil name)
  have hlen3 : ¬ ((splitOnDash name ++ v0 :: vs) ++ [archC]).length < 3 := by
    simp only [List.length_append, List.length_cons]
    omega
  have hArchIdx : lastIdxWhere archCandidate
      ((splitOnDash name ++ v0 :: vs) ++ [archC])
      = some (splitOnDash name ++ v0 :: vs).length :=
    lastIdxWhere_concat _ _ harch
  have hIdxVal : (splitOnDash name ++ v0 :: vs).length
      = (splitOnDash name).length + (vs.length + 1) := by
    simp
  have hne0 : ¬ (splitOnDash name ++ v0 :: vs).length = 0 := by
    simp only [List.length_append, List.length_cons]
    omega
  have hDropLast : ((splitOnDash name ++ v0 :: vs) ++ [archC]).dropLast
      = splitOnDash name ++ v0 :: vs := List.dropLast_concat
  have hVerStart : lastIdxWhere versionishPart (splitOnDash name ++ v0 :: vs)
      = some (splitOnDash name).length :=
    lastIdxWhere_append_cons _ _ _ hv0' hvtail'
  have hTake : ((splitOnDash name ++ v0 :: vs) ++ [archC]).take
      (splitOnDash name).length = splitOnDash name := by
    rw [List.append_assoc]
    exact List.take_left _ _
  have hDrop : ((splitOnDash name ++ v0 :: vs) ++ [archC]).drop
      (splitOnDash name).length = v0 :: vs ++ [archC] := by
    rw [List.append_assoc]
    exact List.drop_left _ _
  have hSub : (splitOnDash name ++ v0 :: vs).length
      - (splitOnDash name).length = vs.length + 1 := by
    simp only [List.length_append, List.length_cons]
    omega
  have hTakeV : (v0 :: vs ++ [archC]).take (vs.length + 1) = v0 :: vs := by
    have : v0 :: vs ++ [archC] = (v0 :: vs) ++ [archC] := by simp
    rw [this, show vs.length + 1 = (v0 :: vs).length from rfl]
    exact List.take_left _ _
  have hGetD : ((splitOnDash name ++ v0 :: vs) ++ [archC]).getD
      (splitOnDash name ++ v0 :: vs).length [] = archC :=
    getD_append_cons_length _ _ [] []
  have hJoinV : joinDash (v0 :: vs) = version := by
    rw [← hv]; exact joinDash_splitOnDash version
  simp only [parsePackageFilenameCore, hEnds, if_true, hTrim, hParts]
  rw [if_neg hlen3, hArchIdx]
  simp only [if_neg hne0, hDropLast, hVerStart, Option.getD_some, hTake,
    hDrop, hSub, hTakeV, hGetD, hJoinV, joinDash_splitOnDash,
    hdigit, if_true]

/-- A concrete recipe used by witnesses and counterexamples below. -/
def demoRecipe : BuildRecipe :=
  { name := "hello-world"
    version := "1.0.0"
    description := "A demo package"
    source := "https://example.com/hello-world-1.0.0.tar.gz"
    hash := none
    arch := ["x86_64", "aarch64"]
    dependencies := []
    runtime_dependencies := []
    provides := []
    conflicts := []
    build := some "make"
    install := none
    uninstall := none }

/-! ## C2: filename construction / parsing roundtrip -/

/-- C2 (amended): for every recipe whose name is over the identifier charset
and whose version contains a digit, lies in the modelled character range,
and looks like a version to the parser — its first dash-separated segment
contains a `.` or is purely numeric, and no later dash-separated segment
does — and for every whitelisted architecture `arch`, parsing the canonical
constructed filename recovers the inputs exactly:
`parse_package_filename (package_filename_for_arch r arch) =
some (r.name, r.version, arch)`. -/
theorem C2_parse_build_roundtrip (r : BuildRecipe) (arch : String)
    (hname : r.name.data.all
      (fun c => rustIsAlphanumeric c || c = '-' || c = '_') = true)
    (harch : arch ∈ validArchs)
    (hrange : ∀ c ∈ r.version.data, c.toNat < 256)
    (hdigit : r.version.data.any rustIsNumeric = true)
    (hv0 : versionishPart ((splitOnDash r.version.data).headD []) = true)
    (hvtail : ∀ p ∈ (splitOnDash r.version.data).tail,
      versionishPart p = false) :
    parse_package_filename (package_filename_for_arch r arch) =
      some (r.name, r.version, arch) := by
  have hdata : (package_filename_for_arch r arch).data
      = (r.name.data ++ '-' :: r.version.data ++ '-' :: arch.data)
        ++ ['.', 'p', 'a', 'x'] := by
    simp [package_filename_for_arch, package_id, String.data_append]
  simp only [validArchs, List.mem_cons, List.not_mem_nil, or_false] at harch
  rcases harch with rfl | rfl | rfl | rfl | rfl <;>
  · simp only [parse_package_filename, hdata]
    rw [parseCore_roundtrip _ _ _ (by decide) (by decide) (by decide)
      (by decide) hdigit hv0 hvtail]
    rfl

/-- C2 witness: the roundtrip theorem applied to the demo recipe and
`x86_64`, every hypothesis discharged by evaluation. -/
theorem C2_parse_build_roundtrip_witness :
    parse_package_filename (package_filename_for_arch demoRecipe "x86_64")
      = some ("hello-world", "1.0.0", "x86_64") :=
  C2_parse_build_roundtrip demoRecipe "x86_64" (by decide) (by decide)
    (by decide) (by decide) (by decide) (by decide)

/-- C2 counterexample: with name `"foo"` (over the recipe charset), version
`"x1"` (contains a digit; its single segment is neither numeric-only nor
architecture-like) and whitelisted architecture `"x86_64"`, the claim as
stated fails: parsing the constructed filename does not recover the inputs
— it returns `none`, because no segment of `"x1"` contains a `.` or is
purely numeric, so the parser finds no version start. -/
theorem C2_roundtrip_counterexample :
    ("foo".data.all (fun c => rustIsAlphanumeric c || c = '-' || c = '_')
      = true)
    ∧ "x1".data.any rustIsNumeric = true
    ∧ "x1".data.all rustIsNumeric = false
    ∧ is_architecture_supported "x1" = false
    ∧ (¬ "x1".data.contains '.' = true)
    ∧ parse_package_filename
        (package_filename_for_arch
          { demoRecipe with name := "foo", version := "x1" } "x86_64")
        = none := by decide

/-! ## C4: the architecture-less filename variant -/

/-- C4 (amended): `parse_package_filename` rejects the architecture-less
`name-version.pax` variant: whenever no dash-separated segment of
`name-version` is a whitelisted architecture tag (and `name-version` does
not itself end in `".pax"`), parsing returns `none` — there is no
single-architecture legacy acceptance. -/
theorem C4_parse_without_arch_fails (name version : String)
    (hnp : endsWithPax (name ++ "-" ++ version).data = false)
    (hparts : ∀ p ∈ splitOnDash (name ++ "-" ++ version).data,
      is_architecture_supported (String.mk p) = false) :
    parse_package_filename (name ++ "-" ++ version ++ ".pax") = none := by
  have hdata : (name ++ "-" ++ version ++ ".pax").data
      = (name ++ "-" ++ version).data ++ ['.', 'p', 'a', 'x'] := by
    rw [String.data_append]
  have hnone : lastIdxWhere archCandidate
      (splitOnDash (name ++ "-" ++ version).data) = none := by
    apply lastIdxWhere_eq_none
    intro x hx
    simp [archCandidate, hparts x hx]
  simp only [parse_package_filename, hdata, parsePackageFilenameCore,
    endsWithPax_append_ext, if_true, trimEndMatchesPax_append_ext _ hnp,
    hnone]
  by_cases hl : (splitOnDash (name ++ "-" ++ version).data).length < 3 <;>
    simp [hl]

/-- C4 witness: the amended theorem applied to `"hello-world"` and
`"1.0.0"`. -/
theorem C4_parse_without_arch_fails_witness :
    parse_package_filename ("hello-world" ++ "-" ++ "1.0.0" ++ ".pax")
      = none :=
  C4_parse_without_arch_fails "hello-world" "1.0.0" (by decide) (by decide)

/-- C4 counterexample: the claim's own example input
`"hello-world-1.0.0.pax"` is not accepted as a single-architecture legacy
package: parsing fails instead of recovering `("hello-world", "1.0.0")`. -/
theorem C4_legacy_variant_counterexample :
    parse_package_filename "hello-world-1.0.0.pax" = none := by decide

end Paxbuild

deriving instance DecidableEq for Except

namespace Paxbuild

/-! ## C1: checksum verification -/

/-- C1 (amended): hash verification succeeds if and only if the lowercase
hex SHA-256 digest of the downloaded bytes is exactly — case-sensitively —
equal to the expected string with every occurrence of the substring
`"sha256:"` removed (not just a leading algorithm prefix); on inequality it
fails with a checksum-mismatch error carrying the cleaned expected string
and the calculated digest. -/
theorem C1_verify_hash_iff (bytes : List Nat) (expected : String) :
    (verify_hash bytes expected = .ok () ↔
      hexEncode (sha256 bytes) = String.mk (removeSha256Marks expected.data))
    ∧ (hexEncode (sha256 bytes) ≠ String.mk (removeSha256Marks expected.data) →
        verify_hash bytes expected = .error (.checksumMismatch
          (String.mk (removeSha256Marks expected.data))
          (hexEncode (sha256 bytes)))) := by
  unfold verify_hash
  refine ⟨⟨fun h => ?_, fun he => by simp [he]⟩, fun he => by simp [he]⟩
  by_cases he : hexEncode (sha256 bytes)
      = String.mk (removeSha256Marks expected.data)
  · exact he
  · simp [he] at h

/-- C1 witness: verification of the empty byte sequence against its correct
digest carrying the `sha256:` prefix succeeds. -/
theorem C1_verify_hash_iff_witness :
    verify_hash []
      "sha256:e3b0c44298fc1c149afbf4c8996fb92427ae41e4649b934ca495991b7852b855"
      = .ok () :=
  (C1_verify_hash_iff []
    "sha256:e3b0c44298fc1c149afbf4c8996fb92427ae41e4649b934ca495991b7852b855").1.mpr
    (by decide)

/-- ASCII lowercasing, used only to state the claims' "case-insensitive"
comparison. -/
def asciiLowerChar (c : Char) : Char :=
  if 'A' ≤ c && c ≤ 'Z' then Char.ofNat (c.toNat + 32) else c

/-- ASCII lowercasing of a string. -/
def asciiLower (s : String) : String :=
  String.mk (s.data.map asciiLowerChar)

/-- C1 counterexample: the uppercase rendering of the correct SHA-256 digest
of the empty byte sequence is equal to the calculated digest up to case
(witnessed via `asciiLower`), yet verification rejects it — the comparison
is not case-insensitive. -/
theorem C1_case_sensitivity_counterexample :
    hexEncode (sha256 [])
      = "e3b0c44298fc1c149afbf4c8996fb92427ae41e4649b934ca495991b7852b855"
    ∧ asciiLower "E3B0C44298FC1C149AFBF4C8996FB92427AE41E4649B934CA495991B7852B855"
      = "e3b0c44298fc1c149afbf4c8996fb92427ae41e4649b934ca495991b7852b855"
    ∧ verify_hash []
        "E3B0C44298FC1C149AFBF4C8996FB92427AE41E4649B934CA495991B7852B855"
      = .error (.checksumMismatch
          "E3B0C44298FC1C149AFBF4C8996FB92427AE41E4649B934CA495991B7852B855"
          "e3b0c44298fc1c149afbf4c8996fb92427ae41e4649b934ca495991b7852b855") := by
  decide

/-! ## C3: shared build/install directories across architectures -/

/-- A world whose build script installs one architecture-named file per
architecture. -/
def demoWorldPerArch : BuildWorld :=
  { sourceBytes := [], script := fun a => ⟨true, "", "", ["bin/tool-" ++ a]⟩ }

/-- C3 (code bug): the build and install directory paths are identical for
every architecture — `temp/build` and `temp/install`, with no architecture
component — and in a concrete two-architecture run the archive packaged for
the second architecture contains the file produced by the first
architecture's build, because the shared install and package directories
are never cleared between iterations. -/
theorem C3_shared_dirs_commingle_outputs :
    buildDirFor "x86_64" = buildDirFor "aarch64"
    ∧ installDirFor "x86_64" = installDirFor "aarch64"
    ∧ ∃ files, BuildEvent.packagedArchive "aarch64" files
        ∈ (build_for_architectures demoWorldPerArch demoRecipe
            ["x86_64", "aarch64"]).1.events
        ∧ "bin/tool-x86_64" ∈ files :=
  ⟨rfl, rfl,
   ["bin/tool-x86_64", "bin/tool-x86_64", "bin/tool-aarch64", "metadata.yaml"],
   by decide, by decide⟩

/-! ## C8: missing install root -/

/-- C8: when the install root does not exist at assembly time, metadata
synthesis succeeds with an empty files manifest rather than returning an
error. -/
theorem C8_missing_install_root_empty_manifest (r : BuildRecipe)
    (arch : String) (entries : List String) :
    ∃ m, create_package_metadata_for_arch r arch false entries = .ok m
      ∧ m.files = [] :=
  ⟨_, rfl, rfl⟩

/-! ## C5: a checksum mismatch stops the pipeline before extraction -/

/-- C5: when the recipe carries an expected hash whose cleaned form differs
from the digest of the downloaded bytes, the whole invocation fails with
the checksum-mismatch error, and the event trace contains neither an
extraction step nor any build script run — the build directory is never
populated. -/
theorem C5_checksum_mismatch_stops_pipeline (w : BuildWorld)
    (r : BuildRecipe) (archs : List String) (d : String)
    (hvalid : validate r = .ok ())
    (hd : r.hash = some d)
    (hnempty : archs ≠ [])
    (hne : hexEncode (sha256 w.sourceBytes)
      ≠ String.mk (removeSha256Marks d.data)) :
    (build_for_architectures w r archs).2
      = .error (.checksumMismatch (String.mk (removeSha256Marks d.data))
          (hexEncode (sha256 w.sourceBytes)))
    ∧ BuildEvent.extracted ∉ (build_for_architectures w r archs).1.events
    ∧ ∀ a, BuildEvent.ranBuildScript a
        ∉ (build_for_architectures w r archs).1.events := by
  have hverify : verify_hash w.sourceBytes d
      = .error (.checksumMismatch (String.mk (removeSha256Marks d.data))
          (hexEncode (sha256 w.sourceBytes))) := by
    unfold verify_hash
    rw [if_pos hne]
  have he : archs.isEmpty = false := by
    cases archs with
    | nil => exact absurd rfl hnempty
    | cons a t => rfl
  simp only [build_for_architectures, hvalid, he, Bool.false_eq_true,
    if_false, download_and_extract, hd, hverify, initialState]
  refine ⟨trivial, by simp, fun a => by simp⟩

/-- A world whose download yields no bytes and whose build script always
succeeds producing nothing. -/
def demoWorldOk : BuildWorld :=
  { sourceBytes := [], script := fun a => ⟨true, "", "", []⟩ }

/-- C5 witness: the theorem applied to the demo recipe carrying the wrong
expected hash `"deadbeef"`. -/
theorem C5_checksum_mismatch_stops_pipeline_witness :
    (build_for_architectures demoWorldOk
        { demoRecipe with hash := some "deadbeef" } ["x86_64"]).2
      = .error (.checksumMismatch
          (String.mk (removeSha256Marks ("deadbeef" : String).data))
          (hexEncode (sha256 demoWorldOk.sourceBytes)))
    ∧ BuildEvent.extracted ∉ (build_for_architectures demoWorldOk
        { demoRecipe with hash := some "deadbeef" } ["x86_64"]).1.events
    ∧ ∀ a, BuildEvent.ranBuildScript a ∉ (build_for_architectures demoWorldOk
        { demoRecipe with hash := some "deadbeef" } ["x86_64"]).1.events :=
  C5_checksum_mismatch_stops_pipeline demoWorldOk
    { demoRecipe with hash := some "deadbeef" } ["x86_64"] "deadbeef"
    (by decide) rfl (by decide) (by decide)

/-! ## C6: metadata synthesis copies the recipe fields -/

/-- C6: for every valid recipe and architecture being assembled, the
synthesized metadata copies name, version and description from the recipe,
sets the architecture field to the single-element list of the architecture
just built, copies the dependency, runtime-dependency and conflicts lists
verbatim, defaults provides to the one-element list of the package name
exactly when the recipe's provides list is empty, and copies the optional
install and uninstall script bodies. -/
theorem C6_metadata_synthesis (r : BuildRecipe) (arch : String)
    (hvalid : validate r = .ok ())
    (installDirExists : Bool) (entries : List String) :
    ∃ m, create_package_metadata_for_arch r arch installDirExists entries
        = .ok m
      ∧ m.name = r.name
      ∧ m.version = r.version
      ∧ m.description = r.description
      ∧ m.arch = [arch]
      ∧ m.dependencies = r.dependencies
      ∧ m.runtime_dependencies = r.runtime_dependencies
      ∧ m.conflicts = r.conflicts
      ∧ (r.provides = [] → m.provides = [r.name])
      ∧ (r.provides ≠ [] → m.provides = r.provides)
      ∧ m.install_script = r.install
      ∧ m.uninstall_script = r.uninstall := by
  cases installDirExists <;>
  · refine ⟨_, rfl, rfl, rfl, rfl, rfl, rfl, rfl, rfl, ?_, ?_, rfl, rfl⟩
    · intro h
      simp [h]
    · intro h
      simp [List.isEmpty_eq_false_iff_exists_mem.mpr
        (List.exists_mem_of_ne_nil _ h)]

/-- C6 witness: the theorem applied to the demo recipe (whose provides list
is empty) and `x86_64` with an existing install root holding one file. -/
theorem C6_metadata_synthesis_witness :
    ∃ m, create_package_metadata_for_arch demoRecipe "x86_64" true ["hi.txt"]
        = .ok m
      ∧ m.name = demoRecipe.name
      ∧ m.version = demoRecipe.version
      ∧ m.description = demoRecipe.description
      ∧ m.arch = ["x86_64"]
      ∧ m.dependencies = demoRecipe.dependencies
      ∧ m.runtime_dependencies = demoRecipe.runtime_dependencies
      ∧ m.conflicts = demoRecipe.conflicts
      ∧ (demoRecipe.provides = [] → m.provides = [demoRecipe.name])
      ∧ (demoRecipe.provides ≠ [] → m.provides = demoRecipe.provides)
      ∧ m.install_script = demoRecipe.install
      ∧ m.uninstall_script = demoRecipe.uninstall :=
  C6_metadata_synthesis demoRecipe "x86_64" (by decide) true ["hi.txt"]

/-! ## C10: validation accepts non-ASCII alphanumeric names -/

/-- Auxiliary: an architecture list drawn from the whitelist validates. -/
theorem validate_architectures_ok (archs : List String)
    (h : ∀ a ∈ archs, a ∈ validArchs) :
    validate_architectures archs = .ok () := by
  induction archs with
  | nil => rfl
  | cons a rest ih =>
    unfold validate_architectures
    rw [if_pos (List.elem_iff.mpr (h a (by simp))),
      ih fun x hx => h x (by simp [hx])]

/-- C10: recipe validation accepts any character that Rust's Unicode-aware
`char::is_alphanumeric` accepts, not only ASCII: every recipe with
non-empty name, version, description and source, a version containing a
digit, whitelisted architectures, and a name consisting solely of
alphanumeric characters (in the Unicode sense), `-` and `_`, validates
successfully. -/
theorem C10_validate_accepts_unicode_names (r : BuildRecipe)
    (hn : ¬ r.name = "") (hv : ¬ r.version = "") (hd : ¬ r.description = "")
    (hs : ¬ r.source = "")
    (hname : r.name.data.all
      (fun c => rustIsAlphanumeric c || c = '-' || c = '_') = true)
    (hver : r.version.data.any rustIsNumeric = true)
    (harchs : ∀ a ∈ r.arch, a ∈ validArchs) :
    validate r = .ok () := by
  have hne : ∀ s : String, ¬ s = "" → s.isEmpty = false := by
    intro s hs0
    rw [Bool.eq_false_iff]
    intro hc
    exact hs0 ((String.isEmpty_iff s).mp hc)
  have hn' := hne r.name hn
  have hv' := hne r.version hv
  have hd' := hne r.description hd
  have hs' := hne r.source hs
  simp only [validate, hn', hv', hd', hs', hname, hver,
    Bool.false_eq_true, if_false, Bool.not_true,
    validate_architectures_ok r.arch harchs]

/-- C10 witness: a name containing the non-ASCII letter `é` (code point
`0xE9`, beyond ASCII) is accepted by validation. -/
theorem C10_validate_accepts_unicode_names_witness :
    127 < ('é' : Char).toNat
    ∧ validate { demoRecipe with name := "café" } = .ok () :=
  ⟨by decide,
   C10_validate_accepts_unicode_names { demoRecipe with name := "café" }
    (by decide) (by decide) (by decide) (by decide) (by decide) (by decide)
    (by decide)⟩

/-! ## The build loop: evaluation lemmas -/

/-- The build-script step as an equation, success case. -/
theorem run_build_script_for_arch_ok (w : BuildWorld) (arch : String)
    (st : BuilderState) (h : (w.script arch).exitSuccess = true) :
    run_build_script_for_arch w arch st =
      ({ st with
          installFiles := st.installFiles ++ (w.script arch).producedFiles,
          events := st.events ++ [BuildEvent.ranBuildScript arch] },
       .ok ()) := by
  unfold run_build_script_for_arch
  rw [if_pos h]

/-- The build-script step as an equation, failure case: both output streams
are surfaced in the trace and the architecture-tagged error is returned. -/
theorem run_build_script_for_arch_fail (w : BuildWorld) (arch : String)
    (st : BuilderState) (h : (w.script arch).exitSuccess = false) :
    run_build_script_for_arch w arch st =
      ({ st with events := st.events ++
          [BuildEvent.ranBuildScript arch,
           BuildEvent.surfacedOutput arch (w.script arch).stdout
             (w.script arch).stderr] },
       .error (.buildScriptFailed arch)) := by
  unfold run_build_script_for_arch
  rw [if_neg (by simp [h])]

/-- The workspace state after one successful build-and-package iteration
for architecture `b`, starting from `st`. -/
def stepStateAfter (w : BuildWorld) (b : String) (st : BuilderState) :
    BuilderState :=
  { installFiles := st.installFiles ++ (w.script b).producedFiles,
    packageFiles := st.packageFiles
      ++ (st.installFiles ++ (w.script b).producedFiles),
    events := (st.events ++ [BuildEvent.ranBuildScript b]) ++
      [BuildEvent.packagedArchive b
        ((st.packageFiles ++ (st.installFiles ++ (w.script b).producedFiles))
          ++ ["metadata.yaml"])] }

/-- One successful iteration of the loop as an equation. -/
theorem buildLoop_cons_ok (w : BuildWorld) (r : BuildRecipe) (b : String)
    (rest : List String) (st : BuilderState)
    (h : (w.script b).exitSuccess = true) :
    buildLoop w r (b :: rest) st =
      match buildLoop w r rest (stepStateAfter w b st) with
      | (st₃, .ok paths) =>
        (st₃, .ok (package_filename_for_arch r b :: paths))
      | (st₃, .error e) => (st₃, .error e) := by
  simp only [buildLoop, run_build_script_for_arch_ok w b st h,
    create_package_for_arch, stepStateAfter]

/-- One failing iteration of the loop as an equation. -/
theorem buildLoop_cons_fail (w : BuildWorld) (r : BuildRecipe) (b : String)
    (rest : List String) (st : BuilderState)
    (h : (w.script b).exitSuccess = false) :
    buildLoop w r (b :: rest) st =
      ({ st with events := st.events ++
          [BuildEvent.ranBuildScript b,
           BuildEvent.surfacedOutput b (w.script b).stdout
             (w.script b).stderr] },
       .error (.buildScriptFailed b)) := by
  simp only [buildLoop, run_build_script_for_arch_fail w b st h]

/-- When every architecture before `a` builds successfully and `a`'s build
script fails, the loop stops at `a` with the architecture-tagged error;
the trace ends with `a`'s run and its surfaced output, and everything in
between stems from the architectures listed before `a`. -/
theorem buildLoop_fail_trace (w : BuildWorld) (r : BuildRecipe) (a : String)
    (post : List String) (hfail : (w.script a).exitSuccess = false)
    (pre : List String) :
    ∀ st : BuilderState, (∀ b ∈ pre, (w.script b).exitSuccess = true) →
    ∃ evs,
      (buildLoop w r (pre ++ a :: post) st).1.events
        = st.events ++ evs ++ [BuildEvent.ranBuildScript a,
            BuildEvent.surfacedOutput a (w.script a).stdout
              (w.script a).stderr]
      ∧ (∀ e ∈ evs, ∃ b, b ∈ pre ∧
          (e = BuildEvent.ranBuildScript b
           ∨ ∃ files, e = BuildEvent.packagedArchive b files))
      ∧ (buildLoop w r (pre ++ a :: post) st).2
          = .error (.buildScriptFailed a) := by
  induction pre with
  | nil =>
    intro st hpre
    refine ⟨[], ?_, by simp, ?_⟩
    · rw [List.nil_append, buildLoop_cons_fail w r a post st hfail]
      simp
    · rw [List.nil_append, buildLoop_cons_fail w r a post st hfail]
  | cons b pre' ih =>
    intro st hpre
    have hb : (w.script b).exitSuccess = true := hpre b (by simp)
    have hpre' : ∀ x ∈ pre', (w.script x).exitSuccess = true :=
      fun x hx => hpre x (by simp [hx])
    obtain ⟨evs, he, hmem, hres⟩ := ih (stepStateAfter w b st) hpre'
    rw [List.cons_append, buildLoop_cons_ok w r b (pre' ++ a :: post) st hb]
    cases hBL : buildLoop w r (pre' ++ a :: post) (stepStateAfter w b st) with
    | mk st₃ res =>
      rw [hBL] at he hres
      subst hres
      refine ⟨BuildEvent.ranBuildScript b ::
        BuildEvent.packagedArchive b
          ((st.packageFiles ++ (st.installFiles ++ (w.script b).producedFiles))
            ++ ["metadata.yaml"]) :: evs, ?_, ?_, rfl⟩
      · rw [he]
        simp [stepStateAfter]
      · intro e he'
        rcases List.mem_cons.mp he' with rfl | he''
        · exact ⟨b, by simp, Or.inl rfl⟩
        rcases List.mem_cons.mp he'' with rfl | he'''
        · exact ⟨b, by simp, Or.inr ⟨_, rfl⟩⟩
        · obtain ⟨b', hb', hcase⟩ := hmem e he'''
          exact ⟨b', by simp [hb'], hcase⟩

/-- Under a successful download (and hash check, when one is requested),
`build_for_architectures` reduces to the loop started from a state with
empty install and package directories whose trace holds only acquisition
events. -/
theorem build_for_architectures_eq_loop (w : BuildWorld) (r : BuildRecipe)
    (archs : List String) (hvalid : validate r = .ok ()) (hne : archs ≠ [])
    (hhash : ∀ d, r.hash = some d → verify_hash w.sourceBytes d = .ok ()) :
    ∃ st₀ : BuilderState,
      build_for_architectures w r archs = buildLoop w r archs st₀
      ∧ st₀.installFiles = [] ∧ st₀.packageFiles = []
      ∧ ∀ e ∈ st₀.events,
          e = BuildEvent.downloaded ∨ e = BuildEvent.hashVerified
            ∨ e = BuildEvent.extracted := by
  have he : archs.isEmpty = false := by
    cases archs with
    | nil => exact absurd rfl hne
    | cons a t => rfl
  cases hh : r.hash with
  | none =>
    refine ⟨⟨[], [], [BuildEvent.downloaded, BuildEvent.extracted]⟩, ?_, rfl,
      rfl, ?_⟩
    · simp only [build_for_architectures, hvalid, he, Bool.false_eq_true,
        if_false, download_and_extract, hh, initialState]
      rfl
    · intro e he'
      rcases List.mem_cons.mp he' with rfl | he''
      · exact Or.inl rfl
      rcases List.mem_cons.mp he'' with rfl | he'''
      · exact Or.inr (Or.inr rfl)
      · cases he'''
  | some d =>
    refine ⟨⟨[], [], [BuildEvent.downloaded, BuildEvent.hashVerified,
      BuildEvent.extracted]⟩, ?_, rfl, rfl, ?_⟩
    · simp only [build_for_architectures, hvalid, he, Bool.false_eq_true,
        if_false, download_and_extract, hh, hhash d hh, initialState]
      rfl
    · intro e he'
      rcases List.mem_cons.mp he' with rfl | he''
      · exact Or.inl rfl
      rcases List.mem_cons.mp he'' with rfl | he'''
      · exact Or.inr (Or.inl rfl)
      rcases List.mem_cons.mp he''' with rfl | he''''
      · exact Or.inr (Or.inr rfl)
      · cases he''''

/-! ## C7: a failing build script aborts the whole invocation -/

/-- C7: if the build script succeeds for every architecture listed before
`a` and exits non-zero for `a`, the whole multi-architecture invocation
fails with the build-script-failed error identifying `a`; both captured
output streams appear in the trace before the error propagates; no
later-listed architecture is built; and no list of archive paths is
returned. -/
theorem C7_build_script_failure_aborts (w : BuildWorld) (r : BuildRecipe)
    (pre post : List String) (a : String)
    (hvalid : validate r = .ok ())
    (hhash : ∀ d, r.hash = some d → verify_hash w.sourceBytes d = .ok ())
    (hpre : ∀ b ∈ pre, (w.script b).exitSuccess = true)
    (hfail : (w.script a).exitSuccess = false) :
    (build_for_architectures w r (pre ++ a :: post)).2
        = .error (.buildScriptFailed a)
    ∧ BuildEvent.surfacedOutput a (w.script a).stdout (w.script a).stderr
        ∈ (build_for_architectures w r (pre ++ a :: post)).1.events
    ∧ (∀ b ∈ post, b ∉ pre → b ≠ a → BuildEvent.ranBuildScript b
        ∉ (build_for_architectures w r (pre ++ a :: post)).1.events)
    ∧ ∀ paths, (build_for_architectures w r (pre ++ a :: post)).2
        ≠ .ok paths := by
  obtain ⟨st₀, heq, hif, hpf, hev⟩ := build_for_architectures_eq_loop w r
    (pre ++ a :: post) hvalid (by simp) hhash
  obtain ⟨evs, he, hmem, hres⟩ :=
    buildLoop_fail_trace w r a post hfail pre st₀ hpre
  rw [heq]
  refine ⟨hres, ?_, ?_, ?_⟩
  · rw [he]
    simp
  · intro b hbpost hbpre hba hin
    rw [he] at hin
    simp only [List.mem_append, List.mem_cons, List.not_mem_nil,
      or_false] at hin
    rcases hin with (hin | hin) | hin | hin
    · rcases hev _ hin with h1 | h1 | h1 <;> simp at h1
    · obtain ⟨b', hb', hcase⟩ := hmem _ hin
      rcases hcase with hcase | ⟨files, hcase⟩
      · injection hcase with hbb
        exact hbpre (hbb ▸ hb')
      · simp at hcase
    · injection hin with hbb
      exact hba hbb
    · simp at hin
  · intro paths
    rw [hres]
    simp

/-- A world whose build script fails for `aarch64` and succeeds for every
other architecture. -/
def demoWorldFailAarch64 : BuildWorld :=
  { sourceBytes := []
    script := fun a =>
      if a = "aarch64" then ⟨false, "compiling", "error: boom", []⟩
      else ⟨true, "ok", "", ["bin/tool-" ++ a]⟩ }

/-- C7 witness: the theorem applied to the two-architecture demo build
whose second architecture's script fails. -/
theorem C7_build_script_failure_aborts_witness :
    (build_for_architectures demoWorldFailAarch64 demoRecipe
        (["x86_64"] ++ "aarch64" :: [])).2
      = .error (.buildScriptFailed "aarch64")
    ∧ BuildEvent.surfacedOutput "aarch64"
        (demoWorldFailAarch64.script "aarch64").stdout
        (demoWorldFailAarch64.script "aarch64").stderr
      ∈ (build_for_architectures demoWorldFailAarch64 demoRecipe
          (["x86_64"] ++ "aarch64" :: [])).1.events
    ∧ (∀ b ∈ ([] : List String), b ∉ ["x86_64"] → b ≠ "aarch64" →
        BuildEvent.ranBuildScript b
          ∉ (build_for_architectures demoWorldFailAarch64 demoRecipe
              (["x86_64"] ++ "aarch64" :: [])).1.events)
    ∧ ∀ paths, (build_for_architectures demoWorldFailAarch64 demoRecipe
        (["x86_64"] ++ "aarch64" :: [])).2 ≠ .ok paths :=
  C7_build_script_failure_aborts demoWorldFailAarch64 demoRecipe
    ["x86_64"] [] "aarch64" (by decide) (fun d h => nomatch h)
    (by decide) (by decide)

/-! ## C9: an empty architecture list is rejected -/

/-- On the success path the loop returns exactly one archive path per
requested architecture. -/
theorem buildLoop_ok_length (w : BuildWorld) (r : BuildRecipe) :
    ∀ (archs : List String) (st : BuilderState) (paths : List String),
      (buildLoop w r archs st).2 = .ok paths →
      paths.length = archs.length := by
  intro archs
  induction archs with
  | nil =>
    intro st paths h
    simp only [buildLoop] at h
    injection h with h2
    rw [← h2]
  | cons arch rest ih =>
    intro st paths h
    by_cases hs : (w.script arch).exitSuccess = true
    · rw [buildLoop_cons_ok w r arch rest st hs] at h
      cases hBL : buildLoop w r rest (stepStateAfter w arch st) with
      | mk st₃ res =>
        rw [hBL] at h
        cases res with
        | error e => simp at h
        | ok ps =>
          have hlen := ih (stepStateAfter w arch st) ps (by rw [hBL])
          simp only at h
          injection h with h2
          rw [← h2]
          simp [hlen]
    · rw [buildLoop_cons_fail w r arch rest st
        (Bool.not_eq_true _ ▸ hs : (w.script arch).exitSuccess = false)] at h
      simp at h

/-- On the success path the whole invocation returns exactly one archive
path per requested architecture. -/
theorem build_for_architectures_ok_length (w : BuildWorld) (r : BuildRecipe)
    (archs : List String) (paths : List String)
    (h : (build_for_architectures w r archs).2 = .ok paths) :
    paths.length = archs.length := by
  unfold build_for_architectures at h
  cases hv : validate r with
  | error e => rw [hv] at h; simp at h
  | ok u =>
    cases u
    rw [hv] at h
    by_cases he : archs.isEmpty = true
    · rw [if_pos he] at h
      simp at h
    · rw [if_neg he] at h
      cases hdl : download_and_extract w r.hash initialState with
      | mk st res =>
        rw [hdl] at h
        cases res with
        | error e => simp at h
        | ok u =>
          cases u
          exact buildLoop_ok_length w r archs st paths h

/-- C9: for every recipe, an invocation with an empty architecture list
fails with an error — the dedicated "no architectures specified" error
whenever the recipe itself validates — and the success path always returns
one archive path per architecture, never an empty result. -/
theorem C9_empty_architecture_list_fails (w : BuildWorld) (r : BuildRecipe) :
    (∃ e, (build_for_architectures w r []).2 = .error e)
    ∧ (validate r = .ok () →
        (build_for_architectures w r []).2
          = .error .noArchitecturesSpecified)
    ∧ ∀ archs paths, (build_for_architectures w r archs).2 = .ok paths →
        paths.length = archs.length := by
  refine ⟨?_, ?_,
    fun archs paths h => build_for_architectures_ok_length w r archs paths h⟩
  · cases hv : validate r with
    | error e => exact ⟨e, by simp [build_for_architectures, hv]⟩
    | ok u =>
      cases u
      exact ⟨.noArchitecturesSpecified, by simp [build_for_architectures, hv]⟩
  · intro hv
    simp [build_for_architectures, hv]

/-- C9 witness: the demo recipe with an empty architecture list fails with
the dedicated error. -/
theorem C9_empty_architecture_list_fails_witness :
    (build_for_architectures demoWorldOk demoRecipe []).2
      = .error .noArchitecturesSpecified :=
  (C9_empty_architecture_list_fails demoWorldOk demoRecipe).2.1 (by decide)

end Paxbuild
